import Mathlib

/-!
Verification of the llog handler dispatch and rotation subsystem.

This file gives a shallow embedding of the rotating-file handler
(`handler/rotating_file.go`), the plain file handler (`handler/file.go`),
and the logger registry (`registry.go`), together with theorems settling
the specified properties of retention cleanup, rotation, configuration
validation, severity gating and registry behaviour.

Conventions: Go `int` is `Int`, Go `string` is `String`, Go slices are
`List`, a fallible Go call returns `Except`/`Option`, a Go runtime panic
is an explicit `panicked` flag in the result of an operation.  Wall-clock
time (`time.Now()`) and filesystem observations (the result of
`filepath.Glob`, per-file `os.Remove` failures) are passed in explicitly
through an environment value, one per call.
-/

namespace Llog

/-- Calendar date at day granularity, standing in for Go's `time.Time`
where the code only reads year, month and day-of-month. -/
structure Date where
  year : Nat
  month : Nat
  day : Nat
deriving DecidableEq

/-- Gregorian leap-year rule, as in Go's `time` package. -/
def isLeapYear (y : Nat) : Bool :=
  (y % 4 == 0 && y % 100 != 0) || (y % 400 == 0)

/-- Number of days of a month in the Gregorian calendar. -/
def daysInMonth (y m : Nat) : Nat :=
  if m == 2 then (if isLeapYear y then 29 else 28)
  else if m == 4 || m == 6 || m == 9 || m == 11 then 30
  else 31

/-- The calendar day after `d`: Go's `t.AddDate(0, 0, 1)` on a valid date. -/
def nextDay (d : Date) : Date :=
  if d.day < daysInMonth d.year d.month then { d with day := d.day + 1 }
  else if d.month < 12 then { year := d.year, month := d.month + 1, day := 1 }
  else { year := d.year + 1, month := 1, day := 1 }

/-- Two-digit zero-padded decimal rendering (Go `time.Format` reference
tokens "01"/"02"); numbers of three or more digits print in full. -/
def pad2 (n : Nat) : List Char :=
  if n < 100 then [Nat.digitChar (n / 10), Nat.digitChar (n % 10)]
  else Nat.toDigits 10 n

/-- Four-digit zero-padded decimal rendering (Go `time.Format` reference
token "2006"); numbers of five or more digits print in full. -/
def pad4 (n : Nat) : List Char :=
  if n < 10000 then
    [Nat.digitChar (n / 1000), Nat.digitChar (n / 100 % 10),
     Nat.digitChar (n / 10 % 10), Nat.digitChar (n % 10)]
  else Nat.toDigits 10 n

/-- Core of Go's `time.Format` restricted to the reference tokens
"2006", "01", "02" plus literal characters: exactly the layouts the
rotating handler ever holds (the default `2006-01-02` and any layout
accepted by `SetFilenameFormat`). -/
def fmtCore (d : Date) : List Char → List Char
  | '2' :: '0' :: '0' :: '6' :: rest => pad4 d.year ++ fmtCore d rest
  | '0' :: '1' :: rest => pad2 d.month ++ fmtCore d rest
  | '0' :: '2' :: rest => pad2 d.day ++ fmtCore d rest
  | c :: rest => c :: fmtCore d rest
  | [] => []

/-- Go `t.Format(layout)` for the layouts used by the rotating handler. -/
def goTimeFormat (layout : String) (d : Date) : String :=
  String.mk (fmtCore d layout.data)

/-- Does the list `l` start with the list `p`?  (Boolean, by recursion.) -/
def startsWithL : List Char → List Char → Bool
  | [], _ => true
  | _ :: _, [] => false
  | p :: ps, c :: cs => p == c && startsWithL ps cs

/-- Index of the first occurrence of `needle` in `l`, or `none`:
Go `strings.Index` with `-1` rendered as `none`. -/
def strIndexAux (needle : List Char) : List Char → Option Nat
  | [] => if startsWithL needle [] then some 0 else none
  | c :: rest =>
    if startsWithL needle (c :: rest) then some 0
    else (strIndexAux needle rest).map (· + 1)

/-- Go `strings.Index(s, pat)` (`none` standing for `-1`). -/
def strIndex (s pat : String) : Option Nat :=
  strIndexAux pat.data s.data

/-- Go `strings.NewReplacer("\x7bfilename\x7d", basename, "\x7bdate\x7d", date).Replace`:
scan left to right, at each position substituting the first matching
pattern, otherwise copying the character. -/
def replaceTemplates (basename date : String) : List Char → List Char
  | '\x7b' :: 'f' :: 'i' :: 'l' :: 'e' :: 'n' :: 'a' :: 'm' :: 'e' :: '\x7d' :: rest =>
      basename.data ++ replaceTemplates basename date rest
  | '\x7b' :: 'd' :: 'a' :: 't' :: 'e' :: '\x7d' :: rest =>
      date.data ++ replaceTemplates basename date rest
  | c :: rest => c :: replaceTemplates basename date rest
  | [] => []

/-- Drop trailing path separators. -/
def dropTrailingSlashes (l : List Char) : List Char :=
  (l.reverse.dropWhile (· == '/')).reverse

/-- The part of `l` after its last path separator. -/
def afterLastSlash (l : List Char) : List Char :=
  (l.reverse.takeWhile (· != '/')).reverse

/-- Go `filepath.Ext`: scan from the end; stop empty at a separator,
return the suffix from the last dot of the final element.  The first
argument is the reversed path, the second the already-scanned suffix. -/
def extRev : List Char → List Char → String
  | [], _ => ""
  | c :: rest, acc =>
    if c == '/' then ""
    else if c == '.' then String.mk ('.' :: acc)
    else extRev rest (c :: acc)

/-- Go `filepath.Ext(p)`. -/
def pathExt (p : String) : String :=
  extRev p.data.reverse []

/-- Go `filepath.Base(p)` (Unix rules; no `.`/`..` normalization is ever
needed on the paths the handler computes). -/
def pathBase (p : String) : String :=
  if p == "" then "."
  else
    let l := dropTrailingSlashes p.data
    if l.isEmpty then "/" else String.mk (afterLastSlash l)

/-- Go `filepath.Dir(p)`: everything up to the final separator, cleaned.
Simplification relative to `filepath.Clean`: duplicate interior
separators and dot segments are not collapsed (the handler's paths never
contain them). -/
def pathDir (p : String) : String :=
  let l := (p.data.reverse.dropWhile (· != '/')).reverse
  if l.isEmpty then "."
  else
    let c := dropTrailingSlashes l
    if c.isEmpty then "/" else String.mk c

/-- State of a `RotatingFile` handler.  The `Path` and `Fd` fields are the
promoted fields of the embedded `*File` handler (`rf.Path`, `rf.Fd`); the
descriptor is modelled by whether it is open. -/
structure RFState where
  filename : String
  maxFiles : Int
  mustRotate : Bool
  nextRotation : Nat
  filenameFormat : String
  dateFormat : String
  Path : String
  Fd : Bool
deriving DecidableEq

/-- Observable side effects of one handler operation, in order. -/
inductive FEvent where
  | closedFile (path : String)
  | openedFile (path : String)
  | wroteFile (path : String)
  | removedFile (file : String)
deriving DecidableEq

/-- Environment of one call into the rotating handler: the wall clock
and the filesystem's answers (`filepath.Glob` result on the handler's
pattern; per-file `os.Remove` failure). -/
structure Env where
  now : Date
  globResult : Except String (List String)
  removeErr : String → Option String

/-- Go `rf.timedFilename()`: split the logical filename into directory,
base name (extension stripped at its first occurrence, as the source
does) and extension, substitute `\x7bfilename\x7d` and `\x7bdate\x7d` in
`dir + "/" + filenameFormat`, and append the extension. -/
def timedFilename (st : RFState) (now : Date) : String :=
  let dir := pathDir st.filename
  let basename := pathBase st.filename
  let ext := pathExt st.filename
  let basename :=
    if ext != "" then basename.take ((strIndex basename ext).getD basename.length)
    else basename
  let date := goTimeFormat st.dateFormat now
  let timed := String.mk (replaceTemplates basename date (dir ++ "/" ++ st.filenameFormat).data)
  timed ++ ext

/-- Go `rf.globPattern()`: like `timedFilename` but with the date segment
wildcarded and the base name not stripped of its extension. -/
def globPattern (st : RFState) : String :=
  let dir := pathDir st.filename
  let basename := pathBase st.filename
  let ext := pathExt st.filename
  let glob := String.mk (replaceTemplates basename "*" (dir ++ "/" ++ st.filenameFormat).data)
  glob ++ ext

/-- Modelled from the spec: `Close` of the wrapped File handler (the
`*File` with `Path`/`Fd` fields is not under `src/`), which "flushes and
releases the descriptor, setting it to an explicit unopened state". -/
def fileClose (st : RFState) : RFState × List FEvent :=
  if st.Fd then ({ st with Fd := false }, [FEvent.closedFile st.Path]) else (st, [])

/-- Modelled from the spec: `Write` of the wrapped File handler, which
"lazily reopens on next write" at the current `Path` and appends the
formatted record there. -/
def fileWrite (st : RFState) : RFState × List FEvent :=
  if st.Fd then (st, [FEvent.wroteFile st.Path])
  else ({ st with Fd := true }, [FEvent.openedFile st.Path, FEvent.wroteFile st.Path])

/-- Insert a string into a lexicographically sorted list. -/
def insertSorted (s : String) : List String → List String
  | [] => [s]
  | t :: ts => if t < s then t :: insertSorted s ts else s :: t :: ts

/-- Go `sort.Strings`: lexicographic sort (insertion sort as the model). -/
def sortStrings : List String → List String
  | [] => []
  | s :: ss => insertSorted s (sortStrings ss)

/-- The deletion loop of `rotate`: remove files in order, stopping at the
first `os.Remove` failure.  Returns the files actually removed (in order)
and the error of the failed removal, if any. -/
def removeLoop (removeErr : String → Option String) : List String → List String × Option String
  | [] => ([], none)
  | f :: rest =>
    match removeErr f with
    | some e => ([], some e)
    | none =>
      let r := removeLoop removeErr rest
      (f :: r.1, r.2)

/-- Result of `rotate`: final state, removal events, the returned Go
`error`, and whether the call panicked. -/
structure RotateRes where
  st : RFState
  trace : List FEvent
  err : Option String
  panicked : Bool
deriving DecidableEq

/-- Go `rf.rotate()`: update the path to the freshly resolved dated
filename, drop the descriptor, recompute the next-rotation day marker as
tomorrow's day-of-month; skip cleanup when `maxFiles` is 0; glob for
matching files; return early (no deletion) when more files match than
`maxFiles`; otherwise sort and delete `files[:maxFiles]` — which panics
(slice bound beyond the glob slice's length, which equals its capacity)
when fewer than `maxFiles` files matched — clearing `mustRotate` only
when the whole loop succeeds. -/
def rotate (env : Env) (st0 : RFState) : RotateRes :=
  let st := { st0 with
    Path := timedFilename st0 env.now
    Fd := false
    nextRotation := (nextDay env.now).day }
  if st.maxFiles = 0 then ⟨st, [], none, false⟩
  else
    match env.globResult with
    | Except.error e => ⟨st, [], some e, false⟩
    | Except.ok files =>
      if (files.length : Int) > st.maxFiles then ⟨st, [], none, false⟩
      else
        let sorted := sortStrings files
        if sorted.length < st.maxFiles.toNat then ⟨st, [], none, true⟩
        else
          let res := removeLoop env.removeErr (sorted.take st.maxFiles.toNat)
          match res.2 with
          | some e => ⟨st, res.1.map FEvent.removedFile, some e, false⟩
          | none => ⟨{ st with mustRotate := false }, res.1.map FEvent.removedFile, none, false⟩

/-- Result of a Go operation returning nothing: final state, event trace,
and whether the call panicked. -/
structure UnitRes where
  st : RFState
  trace : List FEvent
  panicked : Bool
deriving DecidableEq

/-- Go `rf.Close()`: close the wrapped File handler first, then, if a
rotation is pending, perform `rotate` — whose returned error is
discarded (`Close` itself returns nothing). -/
def closeRF (env : Env) (st : RFState) : UnitRes :=
  let c := fileClose st
  if c.1.mustRotate then
    let r := rotate env c.1
    ⟨r.st, c.2 ++ r.trace, r.panicked⟩
  else ⟨c.1, c.2, false⟩

/-- A log record; `datetimeDay` is `record.Datetime.Day()`, `formatted`
the formatter's output slot. -/
structure Record where
  datetimeDay : Nat
  level : Int
  message : String
  formatted : String
deriving DecidableEq

/-- Go `rf.Write(record)`: if the record's day-of-month exceeds the
stored next-rotation marker, set the pending flag and close (which
rotates) before delegating the write to the wrapped File handler. -/
def writeRF (env : Env) (record : Record) (st : RFState) : UnitRes :=
  if st.nextRotation < record.datetimeDay then
    let c := closeRF env { st with mustRotate := true }
    if c.panicked then c
    else
      let w := fileWrite c.st
      ⟨w.1, c.trace ++ w.2, false⟩
  else
    let w := fileWrite st
    ⟨w.1, w.2, false⟩

/-- Go `NewRotatingFile`: default templates, next-rotation marker set to
tomorrow's day-of-month, first dated path resolved at construction.
The wrapped File handler is created unopened (modelled from the spec:
"the underlying handler lazily reopens on next write"). -/
def newRotatingFile (now : Date) (filename : String) (maxFiles : Int) : RFState :=
  let st0 : RFState := {
    filename := filename
    maxFiles := maxFiles
    mustRotate := false
    nextRotation := (nextDay now).day
    filenameFormat := "\x7bfilename\x7d-\x7bdate\x7d"
    dateFormat := "2006-01-02"
    Path := ""
    Fd := false }
  { st0 with Path := timedFilename st0 now }

/-- Is this character one of the separator class `[/_.-]` of the
validation pattern? -/
def isSepChar (c : Char) : Bool :=
  c == '/' || c == '_' || c == '.' || c == '-'

/-- Consume one optional separator (`[/_.-]?`). -/
def stripSep : List Char → List Char
  | [] => []
  | c :: rest => if isSepChar c then rest else c :: rest

/-- The chars of the year reference token "2006". -/
def yearChars : List Char := ['2', '0', '0', '6']

/-- Match the day part `([/_.-]?02)?$` of the validation pattern. -/
def matchDayPart : List Char → Bool
  | [] => true
  | l => stripSep l == ['0', '2']

/-- Match the month-and-day part `(([/_.-]?01)([/_.-]?02)?)?$` of the
validation pattern. -/
def matchMonthPart : List Char → Bool
  | [] => true
  | l =>
    let u := stripSep l
    startsWithL ['0', '1'] u && matchDayPart (u.drop 2)

/-- Go `regexp.MatchString("^2006(([/_.-]?01)([/_.-]?02)?)?$", s)`:
an anchored match of the date-format validation pattern. -/
def dateFormatMatch (s : String) : Bool :=
  startsWithL yearChars s.data && matchMonthPart (s.data.drop 4)

/-- Go `rf.SetFilenameFormat`: reject a date format not matching the
validation pattern, then a filename format without the `\x7bdate\x7d`
placeholder; on success install both formats and call `rf.Close()`. -/
def setFilenameFormat (env : Env) (st : RFState) (filenameFormat dateFormat : String) :
    Except String UnitRes :=
  if !(dateFormatMatch dateFormat) then Except.error "invalid date format"
  else if (strIndex filenameFormat "\x7bdate\x7d").isNone then
    Except.error "invalid filename format, format should contain at least \x7bdate\x7d"
  else
    Except.ok (closeRF env { st with filenameFormat := filenameFormat, dateFormat := dateFormat })

/-- The optional-separator alternatives of the validation pattern, as
character lists (absent, or one of `/`, `_`, `.`, `-`). -/
def sepLists : List (List Char) := [[], ['/'], ['_'], ['.'], ['-']]

/-- Spec-side reading of the day granularity: nothing, or an optional
separator followed by the day token. -/
def dayShape (r : List Char) : Prop :=
  r = [] ∨ ∃ s2, s2 ∈ sepLists ∧ r = s2 ++ ['0', '2']

/-- Spec-side reading of the month-and-day granularities: nothing, or an
optional separator, the month token, and then a day part. -/
def monthShape (t : List Char) : Prop :=
  t = [] ∨ ∃ s1 r, s1 ∈ sepLists ∧ t = s1 ++ '0' :: '1' :: r ∧ dayShape r

/-- Spec-side reading of "one of the year-only, year+month, or
year+month+day granularities": the year token followed by a month-and-day
part. -/
def specValidDateFormat (s : String) : Prop :=
  ∃ t, s.data = yearChars ++ t ∧ monthShape t

/-- Spec-side reading of "the template must contain a date placeholder":
`\x7bdate\x7d` occurs somewhere in the filename format. -/
def specContainsDate (s : String) : Prop :=
  ∃ pre suf, s.data = pre ++ ('\x7b' :: 'd' :: 'a' :: 't' :: 'e' :: '\x7d' :: []) ++ suf

/-- Is this `Except` an error? -/
def exceptIsError {α : Type} : Except String α → Bool
  | Except.error _ => true
  | Except.ok _ => false

/-- The files removed during an operation, read off its event trace. -/
def removedOf (trace : List FEvent) : List String :=
  trace.filterMap fun ev =>
    match ev with
    | FEvent.removedFile f => some f
    | _ => none

/-- State of the plain File handler (`handler/file.go`): severity floor
and bubble flag (the embedded Handler struct), whether a processor chain
is attached (`f.processors != nil`), whether the writer descriptor is
open, and the byte strings written through it (the model of the file's
contents). -/
structure File where
  level : Int
  bubble : Bool
  hasProcessors : Bool
  writerOpen : Bool
  written : List String
deriving DecidableEq

/-- Modelled from the spec: `IsHandling` of the embedded Handler struct
(not under `src/`): "a handler processes a record only if
`record.severity >= handler.levelFloor`". -/
def File.IsHandling (f : File) (r : Record) : Bool :=
  decide (f.level ≤ r.level)

/-- Go `if f.processors != nil { f.ProcessRecord(record) }`: the
processor chain, applied only when one is attached (the chain itself is
an external collaborator, passed in as a function). -/
def procRec (f : File) (proc : Record → Record) (r : Record) : Record :=
  if f.hasProcessors then proc r else r

/-- Go `f.Write(record)` of `handler/file.go`: write the formatted bytes
to the descriptor; a write on a closed descriptor returns an ignored
error and writes nothing. -/
def File.Write (f : File) (r : Record) : File :=
  if f.writerOpen then { f with written := f.written ++ [r.formatted] } else f

/-- Go `f.Handle(record)` of `handler/file.go`: severity gate, optional
processors, formatting (`record.Formatted` is assigned the formatter's
first return even on error; a formatting error fails the handle silently,
returning false), write, and finally `return false == f.GetBubble()`.
The formatter is the external collaborator `Format(record) -> bytes, error`,
passed in as a function returning the pair. -/
def File.Handle (f : File) (proc : Record → Record)
    (fmt : Record → String × Option String) (r : Record) : File × Record × Bool :=
  if !(f.IsHandling r) then (f, r, false)
  else
    let r1 := procRec f proc r
    let fr := fmt r1
    let r2 := { r1 with formatted := fr.1 }
    if fr.2.isSome then (f, r2, false)
    else (File.Write f r2, r2, false == f.bubble)

/-- A logger channel; only its name is relevant to the registry. -/
structure Logger where
  name : String
deriving DecidableEq

/-- Lookup in the association-list model of the Go map. -/
def lookupA : List (String × Logger) → String → Option Logger
  | [], _ => none
  | (k, v) :: rest, name => if k == name then some v else lookupA rest name

/-- Insert-or-replace in the association-list model of the Go map. -/
def insertA : List (String × Logger) → String → Logger → List (String × Logger)
  | [], name, lg => [(name, lg)]
  | (k, v) :: rest, name, lg =>
    if k == name then (k, lg) :: rest else (k, v) :: insertA rest name lg

/-- Deletion in the association-list model of the Go map. -/
def removeA : List (String × Logger) → String → List (String × Logger)
  | [], _ => []
  | (k, v) :: rest, name =>
    if k == name then removeA rest name else (k, v) :: removeA rest name

/-- The registry (`registry.go`): a name-to-logger map; `none` models
Go's nil map (which `Clear` installs). -/
structure Registry where
  loggers : Option (List (String × Logger))
deriving DecidableEq

/-- Read from a possibly-nil Go map: reading a nil map yields the zero
value with `ok = false`. -/
def mapGet (m : Option (List (String × Logger))) (name : String) : Option Logger :=
  match m with
  | none => none
  | some l => lookupA l name

/-- Go `NewRegistry`: an empty (non-nil) map. -/
def newRegistry : Registry := ⟨some []⟩

/-- Go `Registry.HasLogger`. -/
def Registry.HasLogger (r : Registry) (name : String) : Bool :=
  (mapGet r.loggers name).isSome

/-- Go `Registry.GetLogger`. -/
def Registry.GetLogger (r : Registry) (name : String) : Except String Logger :=
  match mapGet r.loggers name with
  | some v => Except.ok v
  | none => Except.error ("requested " ++ name ++ " logger instance is not in the registry")

/-- Go `Registry.RemoveLogger`: delete only after a successful lookup
(deleting from a nil map would in any case be a no-op). -/
def Registry.RemoveLogger (r : Registry) (name : String) : Registry :=
  match r.loggers with
  | none => r
  | some l => if (lookupA l name).isSome then ⟨some (removeA l name)⟩ else r

/-- Go `Registry.Clear`: sets the logger map to nil. -/
def Registry.Clear (_r : Registry) : Registry := ⟨none⟩

/-- Result of `AddLogger`: success, the duplicate-name error, or the
runtime panic of assigning into a nil map. -/
inductive AddRes where
  | ok (r : Registry)
  | err (msg : String)
  | panicked (msg : String)
deriving DecidableEq

/-- Go `Registry.AddLogger`: default the name from the logger, reject a
duplicate unless overwriting, then assign into the map — a runtime panic
when the map is nil. -/
def Registry.AddLogger (r : Registry) (logger : Logger) (name : String)
    (overwrite : Bool) : AddRes :=
  let key := if name == "" then logger.name else name
  if (mapGet r.loggers key).isSome && !overwrite then
    AddRes.err "logger with the given name already exists"
  else
    match r.loggers with
    | none => AddRes.panicked "assignment to entry in nil map"
    | some l => AddRes.ok ⟨some (insertA l key logger)⟩

/-- An environment whose clock reads `now`, whose glob matches `files`,
and in which every removal succeeds. -/
def envOk (now : Date) (files : List String) : Env :=
  ⟨now, Except.ok files, fun _ => none⟩

/-- Retention scenario for C1: retention count 1, two matching rotated
files, the handler pending a rotation. -/
def c1St : RFState :=
  { newRotatingFile ⟨2023, 1, 5⟩ "/tmp/app.log" 1 with mustRotate := true }

/-- Environment for C1: the glob matches maxFiles + 1 = 2 rotated files. -/
def c1Env : Env :=
  envOk ⟨2023, 1, 6⟩ ["/tmp/app-2023-01-04.log", "/tmp/app-2023-01-05.log"]

/-- Environment for C2, boundary `count = maxFiles`: one matching file. -/
def c2EnvEq : Env := envOk ⟨2023, 1, 6⟩ ["/tmp/app-2023-01-05.log"]

/-- Scenario for C4: retention count 2, but only one file matches. -/
def c4St : RFState :=
  { newRotatingFile ⟨2023, 1, 5⟩ "/tmp/app.log" 2 with mustRotate := true }

/-- Scenario for C5: retention count 1, descriptor open, rotation pending. -/
def c5St : RFState :=
  { newRotatingFile ⟨2023, 1, 5⟩ "/tmp/app.log" 1 with mustRotate := true, Fd := true }

/-- Environment for C5 in which deleting the one matching file fails. -/
def c5EnvA : Env :=
  ⟨⟨2023, 1, 6⟩, Except.ok ["/tmp/app-2023-01-05.log"], fun _ => some "disk full"⟩

/-- The same environment with a differently worded deletion error. -/
def c5EnvB : Env :=
  ⟨⟨2023, 1, 6⟩, Except.ok ["/tmp/app-2023-01-05.log"], fun _ => some "quota exceeded"⟩

/-- Scenario for C6: unlimited retention (`maxFiles = 0`), descriptor
open, rotation pending. -/
def c6St : RFState :=
  { newRotatingFile ⟨2023, 1, 5⟩ "/tmp/app.log" 0 with mustRotate := true, Fd := true }

/-- Environment for C6. -/
def c6Env : Env := envOk ⟨2023, 1, 6⟩ []

/-- Scenario for C6's witness: retention 1, one matching file, all
removals succeeding, rotation pending, descriptor open. -/
def c6WSt : RFState :=
  { newRotatingFile ⟨2023, 1, 5⟩ "/tmp/app.log" 1 with mustRotate := true, Fd := true }

/-- Environment for C6's witness. -/
def c6WEnv : Env := envOk ⟨2023, 1, 6⟩ ["/tmp/app-2023-01-05.log"]

/-- Handler for C3: constructed on 2023-01-05 (next-rotation day marker
6), unlimited retention. -/
def c3St0 : RFState := newRotatingFile ⟨2023, 1, 5⟩ "/tmp/app.log" 0

/-- First record of the C3 scenario: logged on the construction day. -/
def c3R1 : Record := ⟨5, 0, "first", ""⟩

/-- Second record of the C3 scenario: logged on the next calendar day. -/
def c3R2 : Record := ⟨6, 0, "second", ""⟩

/-- The first write of the C3 scenario, on 2023-01-05. -/
def c3W1 : UnitRes := writeRF (envOk ⟨2023, 1, 5⟩ []) c3R1 c3St0

/-- The second write of the C3 scenario, on 2023-01-06. -/
def c3W2 : UnitRes := writeRF (envOk ⟨2023, 1, 6⟩ []) c3R2 c3W1.st

/-- Handler state for C3's witness: same handler after the first write
(descriptor open on the day-05 path). -/
def c3WSt : RFState := c3W1.st

/-- A record logged on 2023-01-07, past the next-rotation marker. -/
def c3R3 : Record := ⟨7, 0, "third", ""⟩

/-- Environment of the witness write, on 2023-01-07. -/
def c3WEnv : Env := envOk ⟨2023, 1, 7⟩ []

/-- Environment and state for the C7 instances. -/
def c7Env : Env := envOk ⟨2023, 1, 5⟩ []

/-- Handler state for the C7 instances. -/
def c7St : RFState := newRotatingFile ⟨2023, 1, 5⟩ "/tmp/app.log" 3

/-- File handler for the C8 witness: severity floor 3. -/
def w8File : File := ⟨3, false, false, true, []⟩

/-- Record for the C8 witness: severity 2, below the floor. -/
def w8Rec : Record := ⟨1, 2, "msg", ""⟩

/-- A formatter that always succeeds. -/
def okFmt : Record → String × Option String := fun r => (r.message, none)

/-- A formatter that always fails. -/
def errFmt : Record → String × Option String := fun _ => ("", some "format failure")

/-- File handler for the C9 witness: severity floor 0. -/
def w9File : File := ⟨0, true, false, true, []⟩

/-- Record for the C9 witness: severity 5, above the floor. -/
def w9Rec : Record := ⟨1, 5, "msg", ""⟩

/-!
## Theorems
-/

/-- C1 (code bug): with retention count `maxFiles = 1` and `N + k = 2`
matching rotated files, the cleanup pass of `rotate` deletes nothing —
its trace is empty and it reports no error — so all `N + k` files
survive, where the claim demands that exactly `N = 1` (the
lexicographically greatest) file remain.  The source's
`len(files) > maxFiles` early return fires exactly when there are files
to delete. -/
theorem c1_cleanup_keeps_excess_files :
    c1St.maxFiles = 1 ∧
    c1Env.globResult = Except.ok ["/tmp/app-2023-01-04.log", "/tmp/app-2023-01-05.log"] ∧
    (rotate c1Env c1St).trace = [] ∧
    (rotate c1Env c1St).err = none ∧
    (rotate c1Env c1St).panicked = false := by
  refine ⟨rfl, rfl, ?_, ?_, ?_⟩ <;> decide

/-- C2 (code bug): at the boundary `count = maxFiles` (here both 1) the
cleanup deletes the matched file — the claim demands it delete nothing —
and at `count = maxFiles + 1` it deletes nothing — the claim demands it
delete exactly the lexicographically smallest one. -/
theorem c2_cleanup_boundary_inverted :
    c1St.maxFiles = 1 ∧
    removedOf (rotate c2EnvEq c1St).trace = ["/tmp/app-2023-01-05.log"] ∧
    removedOf (rotate c1Env c1St).trace = [] := by
  refine ⟨rfl, ?_, ?_⟩ <;> decide

/-- C4 (code bug): with retention count 2 and a single matching file the
retention-cleanup pass of `rotate` panics — `files[:maxFiles]` slices
beyond the matched list — so the cleanup is not total and the process
dies, where the claim says no operation of the core ever panics. -/
theorem c4_rotate_panics_when_fewer_files_than_max :
    c4St.maxFiles = 2 ∧
    c2EnvEq.globResult = Except.ok ["/tmp/app-2023-01-05.log"] ∧
    (rotate c2EnvEq c4St).panicked = true := by
  refine ⟨rfl, rfl, ?_⟩
  decide

/-- C5 (counterexample): when deleting the one matching file fails with
"disk full", the inner `rotate` does return that error, but `Close` —
which returns nothing — discards it: its observable outcome carries no
deletion event and no panic, and is identical to the outcome under a
differently worded deletion error, so the caller of `Close` cannot
observe the error, contrary to the claim that it is returned to them. -/
theorem c5_close_swallows_deletion_error :
    (rotate c5EnvA (fileClose c5St).1).err = some "disk full" ∧
    (closeRF c5EnvA c5St).panicked = false ∧
    removedOf (closeRF c5EnvA c5St).trace = [] ∧
    closeRF c5EnvA c5St = closeRF c5EnvB c5St := by
  refine ⟨?_, ?_, ?_, ?_⟩ <;> decide

/-- C6 (counterexample): with unlimited retention (`maxFiles = 0`) and a
pending rotation, `Close` performs the rotation side-effect but does not
clear the pending flag — `rotate` returns before the `mustRotate = false`
assignment — contrary to the claim that the flag is cleared for every
configuration including `maxFiles = 0`. -/
theorem c6_pending_flag_not_cleared :
    c6St.mustRotate = true ∧ c6St.maxFiles = 0 ∧
    (closeRF c6Env c6St).st.mustRotate = true := by
  refine ⟨rfl, rfl, ?_⟩
  decide

/-- C3 (counterexample): two records written on the distinct calendar
days 2023-01-05 and 2023-01-06 through the same rotating handler
(constructed on 2023-01-05, so its next-rotation day marker is 6) do not
produce two distinct resolved paths: the comparison
`nextRotation < record.Datetime.Day()` is false for day 6, so the second
write reuses the first file — same resolved path, no close and no open
between the writes. -/
theorem c3_same_path_across_days :
    c3R1.datetimeDay ≠ c3R2.datetimeDay ∧
    c3W1.trace = [FEvent.openedFile c3W1.st.Path, FEvent.wroteFile c3W1.st.Path] ∧
    c3W2.st.Path = c3W1.st.Path ∧
    c3W2.trace = [FEvent.wroteFile c3W1.st.Path] := by
  refine ⟨?_, ?_, ?_, ?_⟩ <;> decide

/-- C8 (confirmed): a record whose severity is strictly below the File
handler's level floor is not handled — `Handle` returns false and leaves
the handler (in particular the file contents) and the record untouched. -/
theorem c8_severity_gate : ∀ (f : File) (proc : Record → Record)
    (fmt : Record → String × Option String) (r : Record),
    r.level < f.level → File.Handle f proc fmt r = (f, r, false) := by
  intro f proc fmt r h
  have hh : f.IsHandling r = false := by
    simp only [File.IsHandling, decide_eq_false_iff_not]
    omega
  simp [File.Handle, hh]

/-- C8 witness: floor 3, record severity 2. -/
theorem c8_severity_gate_witness :
    w8Rec.level < w8File.level ∧ File.Handle w8File id okFmt w8Rec = (w8File, w8Rec, false) :=
  ⟨by decide, c8_severity_gate w8File id okFmt w8Rec (by decide)⟩

/-- C9 (confirmed): when a record passes the severity gate but the
formatter fails, `Handle` returns false, the handler state — and hence
the file contents — is unchanged (no write), and no error reaches the
caller: the operation's only output is the boolean (the record merely
keeps the formatter's first return in its formatted slot, as the source
assigns it before checking the error). -/
theorem c9_format_error_silent : ∀ (f : File) (proc : Record → Record)
    (fmt : Record → String × Option String) (r : Record) (e : String),
    f.IsHandling r = true → (fmt (procRec f proc r)).2 = some e →
    File.Handle f proc fmt r =
      (f, { procRec f proc r with formatted := (fmt (procRec f proc r)).1 }, false) := by
  intro f proc fmt r e h1 h2
  simp [File.Handle, h1, h2]

/-- C9 witness: floor 0, record severity 5, failing formatter. -/
theorem c9_format_error_silent_witness :
    w9File.IsHandling w9Rec = true ∧
    (errFmt (procRec w9File id w9Rec)).2 = some "format failure" ∧
    File.Handle w9File id errFmt w9Rec =
      (w9File, { procRec w9File id w9Rec with formatted := (errFmt (procRec w9File id w9Rec)).1 },
        false) :=
  ⟨by decide, by decide,
    c9_format_error_silent w9File id errFmt w9Rec "format failure" (by decide) (by decide)⟩

/-- C10 (confirmed): after `Clear` the registry's map is nil: `HasLogger`
is false and `GetLogger` errors for every name, `RemoveLogger` is a
no-op, and `AddLogger` panics by assigning into the nil map instead of
registering the logger or returning an error. -/
theorem c10_cleared_registry : ∀ (r : Registry) (name : String) (lg : Logger) (ow : Bool),
    (Registry.Clear r).HasLogger name = false ∧
    exceptIsError ((Registry.Clear r).GetLogger name) = true ∧
    (Registry.Clear r).RemoveLogger name = Registry.Clear r ∧
    (Registry.Clear r).AddLogger lg name ow = AddRes.panicked "assignment to entry in nil map" :=
  fun _ _ _ _ => ⟨rfl, rfl, rfl, rfl⟩

/-- Inserting into a sorted list grows its length by one. -/
theorem insertSorted_length (s : String) : ∀ l : List String,
    (insertSorted s l).length = l.length + 1 := by
  intro l
  induction l with
  | nil => rfl
  | cons t ts ih =>
    simp only [insertSorted]
    split <;> simp [ih]

/-- Sorting preserves length. -/
theorem sortStrings_length : ∀ l : List String, (sortStrings l).length = l.length := by
  intro l
  induction l with
  | nil => rfl
  | cons s ss ih => simp [sortStrings, insertSorted_length, ih]

/-- A failing deletion loop removed exactly the files before the first
failing one: the input splits as the removed prefix, the failing file,
and an untouched suffix. -/
theorem removeLoop_some (rf : String → Option String) :
    ∀ (l del : List String) (e : String), removeLoop rf l = (del, some e) →
      ∃ f suf, l = del ++ f :: suf ∧ rf f = some e ∧ ∀ g ∈ del, rf g = none := by
  intro l
  induction l with
  | nil =>
    intro del e h
    simp [removeLoop] at h
  | cons f rest ih =>
    intro del e h
    simp only [removeLoop] at h
    cases hf : rf f with
    | some e0 =>
      rw [hf] at h
      obtain ⟨h1, h2⟩ := Prod.mk.injEq .. ▸ h
      refine ⟨f, rest, ?_, ?_, ?_⟩
      · simp [← h1]
      · rw [hf]; rw [← h2]
      · intro g hg; rw [← h1] at hg; simp at hg
    | none =>
      rw [hf] at h
      obtain ⟨h1, h2⟩ := Prod.mk.injEq .. ▸ h
      obtain ⟨f1, suf, hsplit, hferr, hok⟩ := ih (removeLoop rf rest).1 e (by rw [← h2])
      refine ⟨f1, suf, ?_, hferr, ?_⟩
      · rw [← h1, List.cons_append, ← hsplit]
      · intro g hg
        rw [← h1] at hg
        rcases List.mem_cons.mp hg with hgf | hgd
        · rw [hgf, hf]
        · exact hok g hgd

/-- The event trace of `rotate` consists solely of removals. -/
theorem rotate_trace_removed (env : Env) (st : RFState) (ev : FEvent)
    (h : ev ∈ (rotate env st).trace) : ∃ f, ev = FEvent.removedFile f := by
  simp only [rotate] at h
  split at h
  · simp at h
  · split at h
    · simp at h
    · split at h
      · simp at h
      · split at h
        · simp at h
        · split at h <;>
          · simp only [List.mem_map] at h
            obtain ⟨f, _, hf⟩ := h
            exact ⟨f, hf.symm⟩

/-- The state `rotate` returns always carries the freshly resolved dated
path, a dropped descriptor, and tomorrow's day-of-month as the next
rotation marker. -/
theorem rotate_st_fields (env : Env) (st : RFState) :
    (rotate env st).st.Path = timedFilename st env.now ∧
    (rotate env st).st.Fd = false ∧
    (rotate env st).st.nextRotation = (nextDay env.now).day := by
  simp only [rotate]
  split
  · exact ⟨rfl, rfl, rfl⟩
  · split
    · exact ⟨rfl, rfl, rfl⟩
    · split
      · exact ⟨rfl, rfl, rfl⟩
      · split
        · exact ⟨rfl, rfl, rfl⟩
        · split <;> exact ⟨rfl, rfl, rfl⟩

/-- The pending-rotation flag survives `rotate` except on the one path
where the cleanup runs to completion: `maxFiles` nonzero, glob
succeeding, the match count equal to `maxFiles`, every removal
succeeding. -/
theorem rotate_mustRotate_iff (env : Env) (st : RFState) (h : st.mustRotate = true) :
    ((rotate env st).st.mustRotate = false ↔
      st.maxFiles ≠ 0 ∧ ∃ files, env.globResult = Except.ok files ∧
        (files.length : Int) = st.maxFiles ∧
        (removeLoop env.removeErr (sortStrings files)).2 = none) := by
  simp only [rotate]
  split
  · rename_i h0
    simp only [h0] at *
    simp [h]
  · rename_i h0
    split
    · rename_i e hg
      simp [h, hg]
    · rename_i files hg
      split
      · rename_i h1
        simp only [h, hg, Except.ok.injEq]
        constructor
        · intro hc; cases hc
        · rintro ⟨-, files2, rfl, hlen, -⟩
          omega
      · rename_i h1
        split
        · rename_i h2
          rw [sortStrings_length] at h2
          simp only [h, hg, Except.ok.injEq]
          constructor
          · intro hc; cases hc
          · rintro ⟨-, files2, rfl, hlen, -⟩
            omega
        · rename_i h2
          rw [sortStrings_length] at h2
          have hlen : (files.length : Int) = st.maxFiles := by omega
          have htake : (sortStrings files).take st.maxFiles.toNat = sortStrings files := by
            apply List.take_of_length_le
            rw [sortStrings_length]
            omega
          split
          · rename_i e hsome
            rw [htake] at hsome
            simp only [h, hg, Except.ok.injEq]
            constructor
            · intro hc; cases hc
            · rintro ⟨-, files2, rfl, -, hnone⟩
              rw [hsome] at hnone
              cases hnone
          · rename_i hnone
            rw [htake] at hnone
            simp only [hg, Except.ok.injEq]
            constructor
            · intro _
              exact ⟨h0, files, rfl, hlen, hnone⟩
            · intro _
              trivial

/-- A close event contributes no removal. -/
theorem removedOf_cons_closed (p : String) (l : List FEvent) :
    removedOf (FEvent.closedFile p :: l) = removedOf l := by
  simp [removedOf]

/-- Removal events read back as the removed files. -/
theorem removedOf_map (l : List String) :
    removedOf (l.map FEvent.removedFile) = l := by
  induction l with
  | nil => rfl
  | cons f fs ih => simp [removedOf] at ih ⊢; exact ih

/-- The exact outcome of `rotate` on the path where the deletion loop
fails: path and marker updated, the removed prefix traced, the error
reported, the pending flag untouched. -/
theorem rotate_err_case (env : Env) (s : RFState) (files del : List String) (e : String)
    (h0 : s.maxFiles ≠ 0) (hg : env.globResult = Except.ok files)
    (h1 : ¬((files.length : Int) > s.maxFiles))
    (h2 : ¬((sortStrings files).length < s.maxFiles.toNat))
    (hr : removeLoop env.removeErr ((sortStrings files).take s.maxFiles.toNat) = (del, some e)) :
    rotate env s =
      ⟨{ s with
          Path := timedFilename s env.now
          Fd := false
          nextRotation := (nextDay env.now).day },
        del.map FEvent.removedFile, some e, false⟩ := by
  simp only [rotate, hg]
  rw [hr]
  simp [h0, h1, h2]

/-- C6 (amended theorem): every `Close` with a rotation pending closes the
underlying File handler first — when the descriptor is open the first
event is the close of the current path and all later events are
retention removals — and performs the rotation side-effect (the path is
re-resolved against the clock and the next-rotation marker recomputed);
but the pending flag is cleared exactly when the cleanup pass runs to
completion: `maxFiles` nonzero, the glob succeeding with a match count
equal to `maxFiles`, and every deletion succeeding.  In particular with
`maxFiles = 0`, or with a match count above or below `maxFiles`, the flag
stays set. -/
theorem c6_close_rotates_flag_iff (env : Env) (st : RFState) (h : st.mustRotate = true) :
    (st.Fd = true → ∃ rest, (closeRF env st).trace = FEvent.closedFile st.Path :: rest ∧
        ∀ ev ∈ rest, ∃ f, ev = FEvent.removedFile f) ∧
    (closeRF env st).st.Path = timedFilename st env.now ∧
    (closeRF env st).st.nextRotation = (nextDay env.now).day ∧
    ((closeRF env st).st.mustRotate = false ↔
      st.maxFiles ≠ 0 ∧ ∃ files, env.globResult = Except.ok files ∧
        (files.length : Int) = st.maxFiles ∧
        (removeLoop env.removeErr (sortStrings files)).2 = none) := by
  by_cases hfd : st.Fd = true
  · have hcl : closeRF env st =
        ⟨(rotate env { st with Fd := false }).st,
          FEvent.closedFile st.Path :: (rotate env { st with Fd := false }).trace,
          (rotate env { st with Fd := false }).panicked⟩ := by
      simp [closeRF, fileClose, hfd, h]
    refine ⟨?_, ?_, ?_, ?_⟩
    · intro _
      refine ⟨(rotate env { st with Fd := false }).trace, ?_, ?_⟩
      · rw [hcl]
      · intro ev hev
        exact rotate_trace_removed env { st with Fd := false } ev hev
    · rw [hcl]
      exact (rotate_st_fields env { st with Fd := false }).1
    · rw [hcl]
      exact (rotate_st_fields env { st with Fd := false }).2.2
    · rw [hcl]
      exact rotate_mustRotate_iff env { st with Fd := false } h
  · have hf0 : st.Fd = false := by
      cases hb : st.Fd
      · rfl
      · exact absurd hb hfd
    have hcl : closeRF env st =
        ⟨(rotate env st).st, (rotate env st).trace, (rotate env st).panicked⟩ := by
      simp [closeRF, fileClose, hf0, h]
    refine ⟨fun hcontra => absurd hcontra hfd, ?_, ?_, ?_⟩
    · rw [hcl]
      exact (rotate_st_fields env st).1
    · rw [hcl]
      exact (rotate_st_fields env st).2.2
    · rw [hcl]
      exact rotate_mustRotate_iff env st h

/-- C6 witness: retention 1, one matching file, removals succeeding —
the cleanup completes, so the right side of the flag equivalence holds
and the flag is cleared. -/
theorem c6_close_rotates_flag_iff_witness :
    c6WSt.mustRotate = true ∧
    ((c6WSt.Fd = true → ∃ rest,
        (closeRF c6WEnv c6WSt).trace = FEvent.closedFile c6WSt.Path :: rest ∧
        ∀ ev ∈ rest, ∃ f, ev = FEvent.removedFile f) ∧
    (closeRF c6WEnv c6WSt).st.Path = timedFilename c6WSt c6WEnv.now ∧
    (closeRF c6WEnv c6WSt).st.nextRotation = (nextDay c6WEnv.now).day ∧
    ((closeRF c6WEnv c6WSt).st.mustRotate = false ↔
      c6WSt.maxFiles ≠ 0 ∧ ∃ files, c6WEnv.globResult = Except.ok files ∧
        (files.length : Int) = c6WSt.maxFiles ∧
        (removeLoop c6WEnv.removeErr (sortStrings files)).2 = none)) :=
  ⟨by decide, c6_close_rotates_flag_iff c6WEnv c6WSt (by decide)⟩

/-- C5 (amended theorem): when a deletion fails during the retention
cleanup reached through `Close`, the pass stops at the first failing
file — exactly the files before it in the sorted matched list were
removed and stay removed, nothing after it is touched — and the inner
`rotate` returns that error; but `Close`, which returns nothing, drops
it: its outcome records only the close event and the removals, reports
no panic, and leaves the pending flag set.  The error is not surfaced to
the caller of `Close`. -/
theorem c5_cleanup_abort (env : Env) (st : RFState) (files del : List String) (e : String)
    (h : st.mustRotate = true)
    (h0 : st.maxFiles ≠ 0)
    (hg : env.globResult = Except.ok files)
    (h1 : ¬((files.length : Int) > st.maxFiles))
    (h2 : ¬((sortStrings files).length < st.maxFiles.toNat))
    (hr : removeLoop env.removeErr ((sortStrings files).take st.maxFiles.toNat) = (del, some e)) :
    (∃ f suf, (sortStrings files).take st.maxFiles.toNat = del ++ f :: suf ∧
        env.removeErr f = some e ∧ ∀ g ∈ del, env.removeErr g = none) ∧
    (rotate env (fileClose st).1).err = some e ∧
    removedOf (closeRF env st).trace = del ∧
    (closeRF env st).st.mustRotate = true ∧
    (closeRF env st).panicked = false := by
  by_cases hfd : st.Fd = true
  · have hc1 : (fileClose st).1 = { st with Fd := false } := by
      simp [fileClose, hfd]
    have hrot := rotate_err_case env { st with Fd := false } files del e h0 hg h1 h2 hr
    have hcl : closeRF env st =
        ⟨(rotate env { st with Fd := false }).st,
          FEvent.closedFile st.Path :: (rotate env { st with Fd := false }).trace,
          (rotate env { st with Fd := false }).panicked⟩ := by
      simp [closeRF, fileClose, hfd, h]
    refine ⟨removeLoop_some env.removeErr _ del e hr, ?_, ?_, ?_, ?_⟩
    · rw [hc1, hrot]
    · rw [hcl, hrot]
      rw [removedOf_cons_closed, removedOf_map]
    · rw [hcl, hrot]
      exact h
    · rw [hcl, hrot]
  · have hf0 : st.Fd = false := by
      cases hb : st.Fd
      · rfl
      · exact absurd hb hfd
    have hc1 : (fileClose st).1 = st := by
      simp [fileClose, hf0]
    have hrot := rotate_err_case env st files del e h0 hg h1 h2 hr
    have hcl : closeRF env st =
        ⟨(rotate env st).st, (rotate env st).trace, (rotate env st).panicked⟩ := by
      simp [closeRF, fileClose, hf0, h]
    refine ⟨removeLoop_some env.removeErr _ del e hr, ?_, ?_, ?_, ?_⟩
    · rw [hc1, hrot]
    · rw [hcl, hrot]
      rw [removedOf_map]
    · rw [hcl, hrot]
      exact h
    · rw [hcl, hrot]

/-- C5 witness: retention 1, one matching file whose deletion fails with
"disk full"; the cleanup removes nothing, rotate reports the error,
Close drops it. -/
theorem c5_cleanup_abort_witness :
    c5St.mustRotate = true ∧
    removeLoop c5EnvA.removeErr
        ((sortStrings ["/tmp/app-2023-01-05.log"]).take c5St.maxFiles.toNat) =
      ([], some "disk full") ∧
    ((∃ f suf, (sortStrings ["/tmp/app-2023-01-05.log"]).take c5St.maxFiles.toNat =
        [] ++ f :: suf ∧
        c5EnvA.removeErr f = some "disk full" ∧ ∀ g ∈ ([] : List String),
          c5EnvA.removeErr g = none) ∧
    (rotate c5EnvA (fileClose c5St).1).err = some "disk full" ∧
    removedOf (closeRF c5EnvA c5St).trace = [] ∧
    (closeRF c5EnvA c5St).st.mustRotate = true ∧
    (closeRF c5EnvA c5St).panicked = false) :=
  ⟨by decide, by decide,
    c5_cleanup_abort c5EnvA c5St ["/tmp/app-2023-01-05.log"] [] "disk full"
      (by decide) (by decide) rfl (by decide) (by decide) (by decide)⟩

/-- C3 (amended theorem): a write whose record's day-of-month strictly
exceeds the handler's next-rotation marker (the condition the source
actually tests; merely falling on a different calendar day does not
suffice) closes the file at the current path before the newly resolved
path is opened and written: between the close and the open only
retention removals occur.  The handler ends up on the path resolved at
the rotation time, distinct from the first file's path whenever the
resolved dated filename differs from it — as it does for distinct
calendar days under the default zero-padded templates. -/
theorem c3_rotation_close_before_open (env : Env) (r : Record) (st : RFState)
    (hfd : st.Fd = true)
    (hday : st.nextRotation < r.datetimeDay)
    (hnp : (writeRF env r st).panicked = false)
    (hne : st.Path ≠ timedFilename st env.now) :
    ∃ mid,
      (writeRF env r st).trace =
        FEvent.closedFile st.Path :: (mid ++
          [FEvent.openedFile (timedFilename st env.now),
           FEvent.wroteFile (timedFilename st env.now)]) ∧
      (∀ ev ∈ mid, ∃ f, ev = FEvent.removedFile f) ∧
      (writeRF env r st).st.Path = timedFilename st env.now ∧
      st.Path ≠ (writeRF env r st).st.Path := by
  have hcl : closeRF env { st with mustRotate := true } =
      ⟨(rotate env { st with mustRotate := true, Fd := false }).st,
        FEvent.closedFile st.Path ::
          (rotate env { st with mustRotate := true, Fd := false }).trace,
        (rotate env { st with mustRotate := true, Fd := false }).panicked⟩ := by
    simp [closeRF, fileClose, hfd]
  by_cases hp : (rotate env { st with mustRotate := true, Fd := false }).panicked = true
  · exfalso
    have hW : (writeRF env r st).panicked = true := by
      simp only [writeRF, if_pos hday, hcl]
      simp [hp]
    rw [hnp] at hW
    exact Bool.noConfusion hW
  · have hp0 : (rotate env { st with mustRotate := true, Fd := false }).panicked = false := by
      cases hb : (rotate env { st with mustRotate := true, Fd := false }).panicked
      · rfl
      · exact absurd hb hp
    have hfd2 : (rotate env { st with mustRotate := true, Fd := false }).st.Fd = false :=
      (rotate_st_fields env { st with mustRotate := true, Fd := false }).2.1
    have hPath : (rotate env { st with mustRotate := true, Fd := false }).st.Path =
        timedFilename st env.now := by
      rw [(rotate_st_fields env { st with mustRotate := true, Fd := false }).1]
      rfl
    have hW : writeRF env r st =
        ⟨{ (rotate env { st with mustRotate := true, Fd := false }).st with Fd := true },
          FEvent.closedFile st.Path ::
            ((rotate env { st with mustRotate := true, Fd := false }).trace ++
              [FEvent.openedFile (timedFilename st env.now),
               FEvent.wroteFile (timedFilename st env.now)]),
          false⟩ := by
      simp only [writeRF, if_pos hday, hcl]
      simp [hp0, fileWrite, hfd2, hPath]
    refine ⟨(rotate env { st with mustRotate := true, Fd := false }).trace, ?_, ?_, ?_, ?_⟩
    · rw [hW]
    · intro ev hev
      exact rotate_trace_removed env { st with mustRotate := true, Fd := false } ev hev
    · rw [hW]
      exact hPath
    · rw [hW]
      intro hcontra
      exact hne (hcontra.trans hPath)

/-- C3 witness: the handler after the first write of the scenario
(descriptor open on the 2023-01-05 path, marker 6) receives a record of
day 7 on 2023-01-07: the old file is closed, then the distinct new dated
path is opened and written. -/
theorem c3_rotation_close_before_open_witness :
    c3WSt.Fd = true ∧
    c3WSt.nextRotation < c3R3.datetimeDay ∧
    (writeRF c3WEnv c3R3 c3WSt).panicked = false ∧
    c3WSt.Path ≠ timedFilename c3WSt c3WEnv.now ∧
    (∃ mid,
      (writeRF c3WEnv c3R3 c3WSt).trace =
        FEvent.closedFile c3WSt.Path :: (mid ++
          [FEvent.openedFile (timedFilename c3WSt c3WEnv.now),
           FEvent.wroteFile (timedFilename c3WSt c3WEnv.now)]) ∧
      (∀ ev ∈ mid, ∃ f, ev = FEvent.removedFile f) ∧
      (writeRF c3WEnv c3R3 c3WSt).st.Path = timedFilename c3WSt c3WEnv.now ∧
      c3WSt.Path ≠ (writeRF c3WEnv c3R3 c3WSt).st.Path) :=
  ⟨by decide, by decide, by decide, by decide,
    c3_rotation_close_before_open c3WEnv c3R3 c3WSt
      (by decide) (by decide) (by decide) (by decide)⟩

/-- Boolean prefix test as an existential split. -/
theorem startsWithL_iff : ∀ (p l : List Char), startsWithL p l = true ↔ ∃ t, l = p ++ t := by
  intro p
  induction p with
  | nil =>
    intro l
    simp [startsWithL]
  | cons a ps ih =>
    intro l
    cases l with
    | nil =>
      simp [startsWithL]
    | cons c cs =>
      simp only [startsWithL, Bool.and_eq_true, beq_iff_eq]
      constructor
      · rintro ⟨rfl, h⟩
        obtain ⟨t, rfl⟩ := (ih cs).mp h
        exact ⟨t, rfl⟩
      · rintro ⟨t, ht⟩
        rw [List.cons_append, List.cons.injEq] at ht
        exact ⟨ht.1.symm, (ih cs).mpr ⟨t, ht.2⟩⟩

/-- Go `strings.Index` finds the pattern exactly when the string splits
around an occurrence of it. -/
theorem strIndexAux_isSome_iff (needle : List Char) : ∀ l : List Char,
    (strIndexAux needle l).isSome = true ↔ ∃ pre suf, l = pre ++ needle ++ suf := by
  intro l
  induction l with
  | nil =>
    simp only [strIndexAux]
    by_cases hs : startsWithL needle [] = true
    · rw [if_pos hs]
      simp only [Option.isSome_some, true_iff]
      obtain ⟨t, ht⟩ := (startsWithL_iff needle []).mp hs
      exact ⟨[], t, by simp [ht]⟩
    · rw [if_neg hs]
      simp only [Option.isSome_none, Bool.false_eq_true, false_iff]
      rintro ⟨pre, suf, hps⟩
      apply hs
      rw [startsWithL_iff]
      have h := hps.symm
      rw [List.append_eq_nil] at h
      obtain ⟨hpre, hsuf⟩ := h
      rw [List.append_eq_nil] at hpre
      exact ⟨[], by simp [hpre.2]⟩
  | cons c cs ih =>
    simp only [strIndexAux]
    by_cases hs : startsWithL needle (c :: cs) = true
    · rw [if_pos hs]
      simp only [Option.isSome_some, true_iff]
      obtain ⟨t, ht⟩ := (startsWithL_iff needle (c :: cs)).mp hs
      exact ⟨[], t, by simp [ht]⟩
    · rw [if_neg hs]
      rw [show ∀ o : Option Nat, (o.map (· + 1)).isSome = o.isSome from fun o => by
        cases o <;> rfl]
      rw [ih]
      constructor
      · rintro ⟨pre, suf, rfl⟩
        exact ⟨c :: pre, suf, rfl⟩
      · rintro ⟨pre, suf, hps⟩
        cases pre with
        | nil =>
          exfalso
          apply hs
          rw [startsWithL_iff]
          exact ⟨suf, by simpa using hps⟩
        | cons d ds =>
          rw [List.cons_append, List.cons_append, List.cons.injEq] at hps
          exact ⟨ds, suf, hps.2⟩

/-- Membership in the separator alternatives, spelt out. -/
theorem mem_sepLists_iff (s : List Char) :
    s ∈ sepLists ↔ s = [] ∨ s = ['/'] ∨ s = ['_'] ∨ s = ['.'] ∨ s = ['-'] := by
  simp [sepLists]

/-- The separator character class, spelt out. -/
theorem isSepChar_iff (c : Char) :
    isSepChar c = true ↔ (c = '/' ∨ c = '_' ∨ c = '.' ∨ c = '-') := by
  simp [isSepChar, or_assoc]

/-- A separator character yields a one-character separator alternative. -/
theorem sep_single_mem (c : Char) (hc : isSepChar c = true) : [c] ∈ sepLists := by
  rw [mem_sepLists_iff]
  rcases (isSepChar_iff c).mp hc with rfl | rfl | rfl | rfl
  · exact Or.inr (Or.inl rfl)
  · exact Or.inr (Or.inr (Or.inl rfl))
  · exact Or.inr (Or.inr (Or.inr (Or.inl rfl)))
  · exact Or.inr (Or.inr (Or.inr (Or.inr rfl)))

/-- The day part of the validation pattern recognises exactly the
spec-side day shape. -/
theorem matchDayPart_iff : ∀ r : List Char, matchDayPart r = true ↔ dayShape r := by
  intro r
  cases r with
  | nil => simp [matchDayPart, dayShape]
  | cons c rest =>
    have hm : matchDayPart (c :: rest) = (stripSep (c :: rest) == ['0', '2']) := rfl
    rw [hm]
    simp only [stripSep, beq_iff_eq]
    by_cases hc : isSepChar c = true
    · rw [if_pos hc]
      constructor
      · intro h
        exact Or.inr ⟨[c], sep_single_mem c hc, by rw [h]; rfl⟩
      · rintro (h | ⟨s2, hs2, hr⟩)
        · exact absurd h (List.cons_ne_nil c rest)
        · rw [mem_sepLists_iff] at hs2
          rcases hs2 with rfl | rfl | rfl | rfl | rfl
          · simp only [List.nil_append, List.cons.injEq] at hr
            rcases hr with ⟨rfl, h2⟩
            exact absurd hc (by decide)
          all_goals
            simp only [List.singleton_append, List.cons.injEq] at hr
            exact hr.2
    · rw [if_neg hc]
      constructor
      · intro h
        exact Or.inr ⟨[], by rw [mem_sepLists_iff]; exact Or.inl rfl, h⟩
      · rintro (h | ⟨s2, hs2, hr⟩)
        · exact absurd h (List.cons_ne_nil c rest)
        · rw [mem_sepLists_iff] at hs2
          rcases hs2 with rfl | rfl | rfl | rfl | rfl
          · simpa using hr
          all_goals
            simp only [List.singleton_append, List.cons.injEq] at hr
            rcases hr with ⟨rfl, h2⟩
            exact absurd (by decide) hc

/-- The month-and-day part of the validation pattern recognises exactly
the spec-side month shape. -/
theorem matchMonthPart_iff : ∀ t : List Char, matchMonthPart t = true ↔ monthShape t := by
  intro t
  cases t with
  | nil => simp [matchMonthPart, monthShape]
  | cons c rest =>
    have hm : matchMonthPart (c :: rest) =
        (startsWithL ['0', '1'] (stripSep (c :: rest)) &&
          matchDayPart ((stripSep (c :: rest)).drop 2)) := rfl
    rw [hm]
    simp only [stripSep, Bool.and_eq_true]
    by_cases hc : isSepChar c = true
    · rw [if_pos hc]
      constructor
      · rintro ⟨hs, hd⟩
        obtain ⟨t2, rfl⟩ := (startsWithL_iff ['0', '1'] rest).mp hs
        exact Or.inr ⟨[c], t2, sep_single_mem c hc, rfl, (matchDayPart_iff t2).mp hd⟩
      · rintro (h | ⟨s1, t2, hs1, hr, hd⟩)
        · exact absurd h (List.cons_ne_nil c rest)
        · rw [mem_sepLists_iff] at hs1
          rcases hs1 with rfl | rfl | rfl | rfl | rfl
          · simp only [List.nil_append, List.cons.injEq] at hr
            rcases hr with ⟨rfl, h2⟩
            exact absurd hc (by decide)
          all_goals
            simp only [List.singleton_append, List.cons.injEq] at hr
            rcases hr with ⟨h1, rfl⟩
            exact ⟨(startsWithL_iff ['0', '1'] ('0' :: '1' :: t2)).mpr ⟨t2, rfl⟩,
              (matchDayPart_iff t2).mpr hd⟩
    · rw [if_neg hc]
      constructor
      · rintro ⟨hs, hd⟩
        obtain ⟨t2, ht⟩ := (startsWithL_iff ['0', '1'] (c :: rest)).mp hs
        rw [ht] at hd
        exact Or.inr ⟨[], t2, by rw [mem_sepLists_iff]; exact Or.inl rfl, ht,
          (matchDayPart_iff t2).mp hd⟩
      · rintro (h | ⟨s1, t2, hs1, hr, hd⟩)
        · exact absurd h (List.cons_ne_nil c rest)
        · rw [mem_sepLists_iff] at hs1
          rcases hs1 with rfl | rfl | rfl | rfl | rfl
          · have hr2 : c :: rest = '0' :: '1' :: t2 := by simpa using hr
            refine ⟨(startsWithL_iff ['0', '1'] (c :: rest)).mpr ⟨t2, hr2⟩, ?_⟩
            rw [hr2]
            exact (matchDayPart_iff t2).mpr hd
          all_goals
            simp only [List.singleton_append, List.cons.injEq] at hr
            rcases hr with ⟨rfl, h2⟩
            exact absurd (by decide) hc

/-- The anchored validation regex recognises exactly the spec-side set
of date formats: the year token followed by the (possibly absent)
separated month and day tokens. -/
theorem dateFormatMatch_iff (s : String) :
    dateFormatMatch s = true ↔ specValidDateFormat s := by
  simp only [dateFormatMatch, Bool.and_eq_true, startsWithL_iff, specValidDateFormat]
  constructor
  · rintro ⟨⟨t, ht⟩, hm⟩
    refine ⟨t, ht, ?_⟩
    rw [ht] at hm
    have hdrop : (yearChars ++ t).drop 4 = t := rfl
    rw [hdrop] at hm
    exact (matchMonthPart_iff t).mp hm
  · rintro ⟨t, ht, hmm⟩
    refine ⟨⟨t, ht⟩, ?_⟩
    rw [ht]
    have hdrop : (yearChars ++ t).drop 4 = t := rfl
    rw [hdrop]
    exact (matchMonthPart_iff t).mpr hmm

/-- C7 (confirmed): `SetFilenameFormat` returns a validation error — with
no side effect and no panic on that path — exactly when the filename
format lacks the `\x7bdate\x7d` placeholder or the date format is not one
of the year-only, year+month, or year+month+day granularities (each with
an optional `/`, `_`, `.` or `-` separator); in particular
`SetFilenameFormat("\x7bfilename\x7d", "2006")` fails with the
missing-placeholder error, and
`SetFilenameFormat("\x7bfilename\x7d-\x7bdate\x7d", "2006-02-01")`
(a year-day-month ordering) fails with the invalid-date-format error. -/
theorem c7_set_filename_format_validation :
    (∀ (env : Env) (st : RFState) (ff df : String),
      exceptIsError (setFilenameFormat env st ff df) = true ↔
        (¬ specValidDateFormat df ∨ ¬ specContainsDate ff)) ∧
    setFilenameFormat c7Env c7St "\x7bfilename\x7d" "2006" =
      Except.error "invalid filename format, format should contain at least \x7bdate\x7d" ∧
    setFilenameFormat c7Env c7St "\x7bfilename\x7d-\x7bdate\x7d" "2006-02-01" =
      Except.error "invalid date format" := by
  refine ⟨?_, rfl, rfl⟩
  intro env st ff df
  constructor
  · intro h
    by_cases hdf : dateFormatMatch df = true
    · right
      intro hc
      obtain ⟨pre, suf, hps⟩ := hc
      have hsome : (strIndex ff "\x7bdate\x7d").isSome = true :=
        (strIndexAux_isSome_iff ("\x7bdate\x7d".data) ff.data).mpr ⟨pre, suf, hps⟩
      have hnone : (strIndex ff "\x7bdate\x7d").isNone = false := by
        cases ho : strIndex ff "\x7bdate\x7d" with
        | none => rw [ho] at hsome; cases hsome
        | some i => rfl
      have hok : setFilenameFormat env st ff df =
          Except.ok (closeRF env { st with filenameFormat := ff, dateFormat := df }) := by
        simp [setFilenameFormat, hdf, hnone]
      rw [hok] at h
      simp [exceptIsError] at h
    · left
      intro hv
      exact hdf ((dateFormatMatch_iff df).mpr hv)
  · intro h
    rcases h with hv | hcon
    · have hdf : dateFormatMatch df = false := by
        cases hb : dateFormatMatch df with
        | false => rfl
        | true => exact absurd ((dateFormatMatch_iff df).mp hb) hv
      simp [setFilenameFormat, hdf, exceptIsError]
    · by_cases hdf : dateFormatMatch df = true
      · have hnone : (strIndex ff "\x7bdate\x7d").isNone = true := by
          cases ho : strIndex ff "\x7bdate\x7d" with
          | none => rfl
          | some i =>
            exfalso
            apply hcon
            have hsome : (strIndex ff "\x7bdate\x7d").isSome = true := by
              rw [ho]; rfl
            exact (strIndexAux_isSome_iff ("\x7bdate\x7d".data) ff.data).mp hsome
        simp [setFilenameFormat, hdf, hnone, exceptIsError]
      · have hdf0 : dateFormatMatch df = false := by
          cases hb : dateFormatMatch df with
          | false => rfl
          | true => exact absurd hb hdf
        simp [setFilenameFormat, hdf0, exceptIsError]

end Llog
